import Mathlib

/-!
# PS4 controller report parser (PS4BT_ES.h)

A shallow embedding of the data layout and of the inline member functions of
class PS4Parser declared in src/PS4BT_ES.h.

Conventions
* uint8_t / uint16_t values and bit-fields are natural numbers; a value that
  enters through a uint8_t parameter is reduced modulo 256 at that point.
* int16_t values are integers.
* A C array of length n is a function on Fin n.
* A member function that mutates the object takes the parser state and
  returns the new one.
-/

/-! ## Data layout -/

/-- The union PS4Buttons: the 24-bit member val. The bit-fields of the packed
struct sharing its storage are read off val, least significant bit first. -/
structure PS4Buttons where
  val : Nat
deriving DecidableEq, Repr

/-- The bit-field dpad : 4 (bits 0..3). -/
def PS4Buttons.dpad (b : PS4Buttons) : Nat := b.val % 16
/-- The bit-field square : 1 (bit 4). -/
def PS4Buttons.square (b : PS4Buttons) : Nat := b.val / 2 ^ 4 % 2
/-- The bit-field cross : 1 (bit 5). -/
def PS4Buttons.cross (b : PS4Buttons) : Nat := b.val / 2 ^ 5 % 2
/-- The bit-field circle : 1 (bit 6). -/
def PS4Buttons.circle (b : PS4Buttons) : Nat := b.val / 2 ^ 6 % 2
/-- The bit-field triangle : 1 (bit 7). -/
def PS4Buttons.triangle (b : PS4Buttons) : Nat := b.val / 2 ^ 7 % 2
/-- The bit-field l1 : 1 (bit 8). -/
def PS4Buttons.l1 (b : PS4Buttons) : Nat := b.val / 2 ^ 8 % 2
/-- The bit-field r1 : 1 (bit 9). -/
def PS4Buttons.r1 (b : PS4Buttons) : Nat := b.val / 2 ^ 9 % 2
/-- The bit-field l2 : 1 (bit 10). -/
def PS4Buttons.l2 (b : PS4Buttons) : Nat := b.val / 2 ^ 10 % 2
/-- The bit-field r2 : 1 (bit 11). -/
def PS4Buttons.r2 (b : PS4Buttons) : Nat := b.val / 2 ^ 11 % 2
/-- The bit-field share : 1 (bit 12). -/
def PS4Buttons.share (b : PS4Buttons) : Nat := b.val / 2 ^ 12 % 2
/-- The bit-field options : 1 (bit 13). -/
def PS4Buttons.options (b : PS4Buttons) : Nat := b.val / 2 ^ 13 % 2
/-- The bit-field l3 : 1 (bit 14). -/
def PS4Buttons.l3 (b : PS4Buttons) : Nat := b.val / 2 ^ 14 % 2
/-- The bit-field r3 : 1 (bit 15). -/
def PS4Buttons.r3 (b : PS4Buttons) : Nat := b.val / 2 ^ 15 % 2
/-- The bit-field ps : 1 (bit 16). -/
def PS4Buttons.ps (b : PS4Buttons) : Nat := b.val / 2 ^ 16 % 2
/-- The bit-field touchpad : 1 (bit 17). -/
def PS4Buttons.touchpad (b : PS4Buttons) : Nat := b.val / 2 ^ 17 % 2
/-- The bit-field reportCounter : 6 (bits 18..23). -/
def PS4Buttons.reportCounter (b : PS4Buttons) : Nat := b.val / 2 ^ 18 % 64

/-- The anonymous struct of touchpadXY::finger: one finger record. -/
structure Finger where
  /-- Field counter : 7. -/
  counter : Nat
  /-- Field touching : 1, cleared while the finger touches the pad. -/
  touching : Nat
  /-- Field x : 12. -/
  x : Nat
  /-- Field y : 12. -/
  y : Nat
deriving DecidableEq, Repr

/-- The struct touchpadXY: a filler byte and two finger records. -/
structure touchpadXY where
  dummy : Nat
  finger : Fin 2 → Finger

/-- The struct PS4Status. -/
structure PS4Status where
  /-- Field battery : 4. -/
  battery : Nat
  /-- Field usb : 1. -/
  usb : Nat
  /-- Field audio : 1. -/
  audio : Nat
  /-- Field mic : 1. -/
  mic : Nat
  /-- Field unknown : 1. -/
  unknown : Nat
deriving DecidableEq, Repr

/-- The struct PS4Data, fields in declaration order. -/
structure PS4Data where
  hatValue : Fin 4 → Nat
  btn : PS4Buttons
  trigger : Fin 2 → Nat
  dummy : Fin 3 → Nat
  gyroY : Int
  gyroZ : Int
  gyroX : Int
  accX : Int
  accZ : Int
  accY : Int
  dummy2 : Fin 5 → Nat
  status : PS4Status
  dummy3 : Fin 3 → Nat
  xy : Fin 3 → touchpadXY

/-- The struct PS4Output. -/
structure PS4Output where
  bigRumble : Nat
  smallRumble : Nat
  r : Nat
  g : Nat
  b : Nat
  flashOn : Nat
  flashOff : Nat
  reportChanged : Bool
deriving DecidableEq, Repr

/-- The data members of class PS4Parser. -/
structure PS4Parser where
  ps4Data : PS4Data
  oldButtonState : PS4Buttons
  buttonClickState : PS4Buttons
  ps4Output : PS4Output
  oldDpad : Nat

/-- Modelled from the spec: RumbleEnum is declared in controllerEnums.h, which is
not among the sources; its two enumerators are the ones setRumbleOn names. -/
inductive RumbleEnum where
  | RumbleHigh
  | RumbleLow
deriving DecidableEq, Repr

/-! ## Output setters -/

/-- PS4Parser::setRumbleOn(uint8_t bigRumble, uint8_t smallRumble). -/
def PS4Parser.setRumbleOn (p : PS4Parser) (bigRumble smallRumble : Nat) : PS4Parser :=
  { p with ps4Output :=
      { p.ps4Output with
        bigRumble := bigRumble % 256
        smallRumble := smallRumble % 256
        reportChanged := true } }

/-- PS4Parser::setRumbleOn(RumbleEnum mode). -/
def PS4Parser.setRumbleOnMode (p : PS4Parser) (mode : RumbleEnum) : PS4Parser :=
  if mode = RumbleEnum.RumbleLow then
    p.setRumbleOn 0x00 0xFF
  else
    p.setRumbleOn 0xFF 0x00

/-- PS4Parser::setRumbleOff(). -/
def PS4Parser.setRumbleOff (p : PS4Parser) : PS4Parser :=
  p.setRumbleOn 0 0

/-- PS4Parser::setLed(uint8_t r, uint8_t g, uint8_t b). -/
def PS4Parser.setLed (p : PS4Parser) (r g b : Nat) : PS4Parser :=
  { p with ps4Output :=
      { p.ps4Output with
        r := r % 256
        g := g % 256
        b := b % 256
        reportChanged := true } }

/-- PS4Parser::setLed(ColorsEnum color); color is the enumerator's integer value.
Each cast to uint8_t keeps the low eight bits of the shifted value. -/
def PS4Parser.setLedColor (p : PS4Parser) (color : Nat) : PS4Parser :=
  p.setLed ((color >>> 16) % 256) ((color >>> 8) % 256) (color % 256)

/-- PS4Parser::setLedOff(). -/
def PS4Parser.setLedOff (p : PS4Parser) : PS4Parser :=
  p.setLed 0 0 0

/-- PS4Parser::setLedFlash(uint8_t flashOn, uint8_t flashOff). -/
def PS4Parser.setLedFlash (p : PS4Parser) (flashOn flashOff : Nat) : PS4Parser :=
  { p with ps4Output :=
      { p.ps4Output with
        flashOn := flashOn % 256
        flashOff := flashOff % 256
        reportChanged := true } }

/-- PS4Parser::setAllOff(). -/
def PS4Parser.setAllOff (p : PS4Parser) : PS4Parser :=
  p.setRumbleOff.setLedOff

/-! ## Read accessors -/

/-- PS4Parser::getX(uint8_t finger, uint8_t xyId); the indices range over the
declared array bounds finger[2] and xy[3]. -/
def PS4Parser.getX (p : PS4Parser) (finger : Fin 2) (xyId : Fin 3) : Nat :=
  ((p.ps4Data.xy xyId).finger finger).x

/-- PS4Parser::getY(uint8_t finger, uint8_t xyId). -/
def PS4Parser.getY (p : PS4Parser) (finger : Fin 2) (xyId : Fin 3) : Nat :=
  ((p.ps4Data.xy xyId).finger finger).y

/-- PS4Parser::isTouching(uint8_t finger, uint8_t xyId): the logical negation of
the touching bit-field. -/
def PS4Parser.isTouching (p : PS4Parser) (finger : Fin 2) (xyId : Fin 3) : Bool :=
  !(((p.ps4Data.xy xyId).finger finger).touching != 0)

/-- PS4Parser::getTouchCounter(uint8_t finger, uint8_t xyId). -/
def PS4Parser.getTouchCounter (p : PS4Parser) (finger : Fin 2) (xyId : Fin 3) : Nat :=
  ((p.ps4Data.xy xyId).finger finger).counter

/-- Modelled from the spec: SensorEnum is declared in controllerEnums.h, which is
not among the sources. The six enumerators named by the switch of getSensor are
constructors; every further enumerator is an other, tagged with its value. -/
inductive SensorEnum where
  | gX
  | gY
  | gZ
  | aX
  | aY
  | aZ
  | other (code : Nat)
deriving DecidableEq, Repr

/-- PS4Parser::getSensor(SensorEnum s). -/
def PS4Parser.getSensor (p : PS4Parser) (s : SensorEnum) : Int :=
  match s with
  | SensorEnum.gX => p.ps4Data.gyroX
  | SensorEnum.gY => p.ps4Data.gyroY
  | SensorEnum.gZ => p.ps4Data.gyroZ
  | SensorEnum.aX => p.ps4Data.accX
  | SensorEnum.aY => p.ps4Data.accY
  | SensorEnum.aZ => p.ps4Data.accZ
  | SensorEnum.other _ => 0

/-- Modelled from the spec: AngleEnum is declared in controllerEnums.h, which is
not among the sources; its enumerators are the two getAngle documents. -/
inductive AngleEnum where
  | Pitch
  | Roll
deriving DecidableEq, Repr

/-- The C library function atan2f(y, x) read in exact real arithmetic: the angle
of the point (x, y) in the interval (-π, π], and 0 at the origin. -/
noncomputable def atan2f (y x : ℝ) : ℝ :=
  Complex.arg ⟨x, y⟩

/-- The Arduino constant PI, read as the real number π. -/
noncomputable def PI : ℝ := Real.pi

/-- The Arduino constant RAD_TO_DEG, read as the real number 180/π. -/
noncomputable def RAD_TO_DEG : ℝ := 180 / Real.pi

/-- PS4Parser::getAngle(AngleEnum a), with the float expression evaluated in exact
real arithmetic (no rounding). -/
noncomputable def PS4Parser.getAngle (p : PS4Parser) (a : AngleEnum) : ℝ :=
  if a = AngleEnum.Pitch then
    (atan2f (p.ps4Data.accY : ℝ) (p.ps4Data.accZ : ℝ) + PI) * RAD_TO_DEG
  else
    (atan2f (p.ps4Data.accX : ℝ) (p.ps4Data.accZ : ℝ) + PI) * RAD_TO_DEG

/-- PS4Parser::getBatteryLevel(). -/
def PS4Parser.getBatteryLevel (p : PS4Parser) : Nat :=
  p.ps4Data.status.battery

/-- PS4Parser::getUsbStatus(): the usb bit-field converted to bool. -/
def PS4Parser.getUsbStatus (p : PS4Parser) : Bool :=
  p.ps4Data.status.usb != 0

/-- PS4Parser::getAudioStatus(): the audio bit-field converted to bool. -/
def PS4Parser.getAudioStatus (p : PS4Parser) : Bool :=
  p.ps4Data.status.audio != 0

/-- PS4Parser::getMicStatus(): the mic bit-field converted to bool. -/
def PS4Parser.getMicStatus (p : PS4Parser) : Bool :=
  p.ps4Data.status.mic != 0

/-! ## The packed layout of PS4Data over a byte block

All structs are declared packed, so members follow one another without padding;
bit-fields fill each storage unit from its least significant bit, and multi-byte
integers are little-endian. -/

/-- Byte i of a buffer; a position past the end reads as 0. -/
def byteAt (buf : List Nat) (i : Nat) : Nat :=
  buf.getD i 0 % 256

/-- A uint16_t stored little-endian at bytes i, i+1. -/
def uint16At (buf : List Nat) (i : Nat) : Nat :=
  byteAt buf i + 256 * byteAt buf (i + 1)

/-- An int16_t stored little-endian, two's complement, at bytes i, i+1. -/
def int16At (buf : List Nat) (i : Nat) : Int :=
  if uint16At buf i < 32768 then (uint16At buf i : Int) else (uint16At buf i : Int) - 65536

/-- The finger record stored at bytes i .. i+3: counter : 7 and touching : 1 in
the first byte, then x : 12 and y : 12 across the following three bytes. -/
def fingerAt (buf : List Nat) (i : Nat) : Finger where
  counter := byteAt buf i % 128
  touching := byteAt buf i / 128
  x := byteAt buf (i + 1) + 256 * (byteAt buf (i + 2) % 16)
  y := byteAt buf (i + 2) / 16 + 16 * byteAt buf (i + 3)

/-- The touchpadXY stored at bytes i .. i+8. -/
def touchpadXYAt (buf : List Nat) (i : Nat) : touchpadXY where
  dummy := byteAt buf i
  finger := fun f => fingerAt buf (i + 1 + 4 * f.val)

/-- The PS4Status stored in byte i. -/
def statusAt (buf : List Nat) (i : Nat) : PS4Status where
  battery := byteAt buf i % 16
  usb := byteAt buf i / 16 % 2
  audio := byteAt buf i / 32 % 2
  mic := byteAt buf i / 64 % 2
  unknown := byteAt buf i / 128

/-- The number of bytes PS4Data occupies: sizeof(PS4Data). -/
def PS4Data.size : Nat := 4 + 3 + 2 + 3 + 6 * 2 + 5 + 1 + 3 + 3 * 9

/-- The PS4Data whose storage holds the first PS4Data.size bytes of buf. -/
def PS4Data.ofBytes (buf : List Nat) : PS4Data where
  hatValue := fun i => byteAt buf i.val
  btn := ⟨byteAt buf 4 + 256 * byteAt buf 5 + 65536 * byteAt buf 6⟩
  trigger := fun i => byteAt buf (7 + i.val)
  dummy := fun i => byteAt buf (9 + i.val)
  gyroY := int16At buf 12
  gyroZ := int16At buf 14
  gyroX := int16At buf 16
  accX := int16At buf 18
  accZ := int16At buf 20
  accY := int16At buf 22
  dummy2 := fun i => byteAt buf (24 + i.val)
  status := statusAt buf 29
  dummy3 := fun i => byteAt buf (30 + i.val)
  xy := fun k => touchpadXYAt buf (33 + 9 * k.val)

/-! ## Decoding and button edge tracking

Parse, getButtonPress, getButtonClick and checkDpad are only declared in
PS4BT_ES.h; their bodies are not among the sources. The definitions of this
section follow the specification (sections 4.1 and 4.2) over the data members
and the PS4_BUTTONS table of the header. -/

/-- Modelled from the spec: ButtonEnum is declared in controllerEnums.h, which is
not among the sources. The enumerators are the eighteen buttons that the comments
of the PS4_BUTTONS table list, in table order. -/
inductive ButtonEnum where
  | UP
  | RIGHT
  | DOWN
  | LEFT
  | SHARE
  | OPTIONS
  | L3
  | R3
  | L2
  | R2
  | L1
  | R1
  | TRIANGLE
  | CIRCLE
  | CROSS
  | SQUARE
  | PS
  | TOUCHPAD
deriving DecidableEq, Repr

/-- Modelled from the spec: the integer value of a ButtonEnum enumerator, missing
with controllerEnums.h, taken to be its position in the PS4_BUTTONS table. -/
def ButtonEnum.toNat : ButtonEnum → Nat
  | UP => 0
  | RIGHT => 1
  | DOWN => 2
  | LEFT => 3
  | SHARE => 4
  | OPTIONS => 5
  | L3 => 6
  | R3 => 7
  | L2 => 8
  | R2 => 9
  | L1 => 10
  | R1 => 11
  | TRIANGLE => 12
  | CIRCLE => 13
  | CROSS => 14
  | SQUARE => 15
  | PS => 16
  | TOUCHPAD => 17

/-- The table PS4_BUTTONS: entry i is the bit position of button i. -/
def PS4_BUTTONS : List Nat :=
  [ ButtonEnum.UP.toNat, ButtonEnum.RIGHT.toNat, ButtonEnum.DOWN.toNat, ButtonEnum.LEFT.toNat,
    0x0C, 0x0D, 0x0E, 0x0F,
    0x0A, 0x0B, 0x08, 0x09,
    0x07, 0x06, 0x05, 0x04,
    0x10, 0x11 ]

/-- The bit position PS4_BUTTONS gives for button b. -/
def buttonBit (b : ButtonEnum) : Nat :=
  PS4_BUTTONS.getD b.toNat 0

/-- Modelled from the spec: PS4Parser::checkDpad is declared only. A D-pad button
is held when the direction is its own or one of the two neighbouring diagonals of
the eight-direction compass, numbered clockwise from up = 0; 8 and above assert
no direction. -/
def checkDpad (d : PS4Data) (b : ButtonEnum) : Bool :=
  match b with
  | ButtonEnum.UP => d.btn.dpad == 7 || d.btn.dpad == 0 || d.btn.dpad == 1
  | ButtonEnum.RIGHT => d.btn.dpad == 1 || d.btn.dpad == 2 || d.btn.dpad == 3
  | ButtonEnum.DOWN => d.btn.dpad == 3 || d.btn.dpad == 4 || d.btn.dpad == 5
  | ButtonEnum.LEFT => d.btn.dpad == 5 || d.btn.dpad == 6 || d.btn.dpad == 7
  | _ => false

/-- The bit of button b alone when c holds, otherwise no bit. -/
def bitIf (c : Bool) (b : ButtonEnum) : Nat :=
  if c then 1 <<< buttonBit b else 0

/-- Modelled from the spec: the ButtonSnapshot of a decoded report, one bit per
logical button: the four directional bits derived from the D-pad value, and the
fourteen button flags (bits 4..17 of btn.val) as transmitted. -/
def snapshot (d : PS4Data) : Nat :=
  bitIf (checkDpad d ButtonEnum.UP) ButtonEnum.UP |||
  bitIf (checkDpad d ButtonEnum.RIGHT) ButtonEnum.RIGHT |||
  bitIf (checkDpad d ButtonEnum.DOWN) ButtonEnum.DOWN |||
  bitIf (checkDpad d ButtonEnum.LEFT) ButtonEnum.LEFT |||
  (d.btn.val &&& 0x3FFF0)

/-- Whether button b is pressed in the decoded report d. -/
def pressedIn (d : PS4Data) (b : ButtonEnum) : Bool :=
  (snapshot d).testBit (buttonBit b)

/-- The bits of a that are not in b, within the 24 bits of a PS4Buttons value:
a & ~b. -/
def andNot (a b : Nat) : Nat :=
  a &&& (0xFFFFFF ^^^ (b % 2 ^ 24))

/-- The outcome of a decode. -/
inductive DecodeResult where
  | ok
  | MalformedReport
deriving DecidableEq, Repr

/-- Modelled from the spec: the fixed report size the decoder validates against is
not given a value; it is taken to be the size of the PS4Data block. -/
def reportSize : Nat := PS4Data.size

/-- Modelled from the spec: PS4Parser::Parse(uint8_t len, uint8_t *buf) is declared
only. A length other than the fixed report size fails with MalformedReport and
leaves the state as it was. Otherwise the decoded report replaces ps4Data, the
click latch gains the buttons that are pressed now and were not pressed in the
previous snapshot (latch |= current_new & ~current_old), and the new snapshot
becomes the current one. -/
def PS4Parser.Parse (p : PS4Parser) (len : Nat) (buf : List Nat) : DecodeResult × PS4Parser :=
  if len % 256 ≠ reportSize then
    (DecodeResult.MalformedReport, p)
  else
    let d := PS4Data.ofBytes buf
    let cur := snapshot d
    (DecodeResult.ok,
      { p with
        ps4Data := d
        buttonClickState := ⟨p.buttonClickState.val ||| andNot cur p.oldButtonState.val⟩
        oldButtonState := ⟨cur⟩
        oldDpad := cur % 16 })

/-- Modelled from the spec: PS4Parser::getButtonPress(ButtonEnum b) is declared
only. A button is held when its bit is set in the current snapshot. -/
def PS4Parser.getButtonPress (p : PS4Parser) (b : ButtonEnum) : Bool :=
  p.oldButtonState.val.testBit (buttonBit b)

/-- Modelled from the spec: PS4Parser::getButtonClick(ButtonEnum b) is declared
only. It returns the latch bit of b and clears it. -/
def PS4Parser.getButtonClick (p : PS4Parser) (b : ButtonEnum) : Bool × PS4Parser :=
  (p.buttonClickState.val.testBit (buttonBit b),
    { p with buttonClickState := ⟨andNot p.buttonClickState.val (1 <<< buttonBit b)⟩ })

/-- What the host does between two observations: hand a frame to Parse, or poll
the click of a button. -/
inductive Event where
  | frame (len : Nat) (buf : List Nat)
  | poll (b : ButtonEnum)
deriving DecidableEq, Repr

/-- The parser state after one event. -/
def PS4Parser.step (p : PS4Parser) : Event → PS4Parser
  | Event.frame len buf => (p.Parse len buf).2
  | Event.poll b => (p.getButtonClick b).2

/-- The parser state after a sequence of events, oldest first. -/
def PS4Parser.run (p : PS4Parser) : List Event → PS4Parser
  | [] => p
  | e :: es => (p.step e).run es

/-- Whether event e, arriving in state p, is a decode in which button b goes from
released to pressed. -/
def risingEdge (b : ButtonEnum) (p : PS4Parser) : Event → Bool
  | Event.frame len buf =>
      decide (len % 256 = reportSize) && !p.getButtonPress b && pressedIn (PS4Data.ofBytes buf) b
  | Event.poll _ => false

/-- Whether no event of the sequence, run from state p, is a rising edge of b. -/
def noRisingEdge (b : ButtonEnum) : PS4Parser → List Event → Bool
  | _, [] => true
  | p, e :: es => !risingEdge b p e && noRisingEdge b (p.step e) es

/-- Whether every frame of the sequence has the report size and shows button b
pressed. -/
def keepsHeld (b : ButtonEnum) : List Event → Bool
  | [] => true
  | Event.frame len buf :: es =>
      decide (len % 256 = reportSize) && pressedIn (PS4Data.ofBytes buf) b && keepsHeld b es
  | Event.poll _ :: es => keepsHeld b es

/-! ## Concrete states and frames used in the examples -/

/-- A parser state with every member zero. -/
def PS4Parser.zero : PS4Parser where
  ps4Data := PS4Data.ofBytes []
  oldButtonState := ⟨0⟩
  buttonClickState := ⟨0⟩
  ps4Output := ⟨0, 0, 0, 0, 0, 0, 0, false⟩
  oldDpad := 0

/-- A frame of the report size whose byte at position i is v, all others 0. -/
def frameWith (i v : Nat) : List Nat :=
  (List.replicate reportSize 0).set i v

/-- The state p with the accelerometer reading replaced by (x, y, z). -/
def PS4Parser.withAcc (p : PS4Parser) (x y z : Int) : PS4Parser :=
  { p with ps4Data := { p.ps4Data with accX := x, accY := y, accZ := z } }

/-- A frame with the D-pad released (direction 8) and no button pressed. -/
def idleFrame : List Nat := frameWith 4 0x08

/-- A frame with the D-pad released and only the cross button pressed. -/
def crossFrame : List Nat := frameWith 4 0x28

/-- The all-zero state after decoding a frame whose status byte is 7. -/
def batterySeven : PS4Parser := (PS4Parser.zero.Parse reportSize (frameWith 29 7)).2

/-- The state p with the bytes of buf laid over the storage of ps4Data. -/
def PS4Parser.withReport (p : PS4Parser) (buf : List Nat) : PS4Parser :=
  { p with ps4Data := PS4Data.ofBytes buf }

/-- The four bytes of the finger record at bytes i .. i+3 read as one
little-endian 32-bit value; the bit-fields counter : 7, touching : 1, x : 12 and
y : 12 are allocated in it in declaration order from the least significant bit. -/
def fingerWord (buf : List Nat) (i : Nat) : Nat :=
  byteAt buf i + 2 ^ 8 * byteAt buf (i + 1) + 2 ^ 16 * byteAt buf (i + 2) +
    2 ^ 24 * byteAt buf (i + 3)

/-- The finger record that the byte quadruple (b0, b1, b2, b3) holds. -/
def decodeFinger (q : Nat × Nat × Nat × Nat) : Finger :=
  fingerAt [q.1, q.2.1, q.2.2.1, q.2.2.2] 0

/-! ## Output state builder -/

/-- C1: for every parser state and every pair of bytes (big, small), after
setRumbleOn(big, small) the output report holds bigRumble = big and
smallRumble = small exactly, and reportChanged is true. -/
theorem setRumbleOn_roundtrip (p : PS4Parser) (big small : Nat)
    (hbig : big < 256) (hsmall : small < 256) :
    (p.setRumbleOn big small).ps4Output.bigRumble = big ∧
    (p.setRumbleOn big small).ps4Output.smallRumble = small ∧
    (p.setRumbleOn big small).ps4Output.reportChanged = true := by
  refine ⟨?_, ?_, rfl⟩
  · exact Nat.mod_eq_of_lt hbig
  · exact Nat.mod_eq_of_lt hsmall

/-- C1 at big = 200, small = 50 on the all-zero state. -/
theorem setRumbleOn_roundtrip_witness :
    (200 < 256 ∧ 50 < 256) ∧
    (PS4Parser.zero.setRumbleOn 200 50).ps4Output.bigRumble = 200 ∧
    (PS4Parser.zero.setRumbleOn 200 50).ps4Output.smallRumble = 50 ∧
    (PS4Parser.zero.setRumbleOn 200 50).ps4Output.reportChanged = true :=
  ⟨by decide, setRumbleOn_roundtrip PS4Parser.zero 200 50 (by decide) (by decide)⟩

/-- C2: every output setter leaves reportChanged = true, for every prior state and
every argument, the arguments equal to the stored values included. -/
theorem setters_mark_report_changed (p : PS4Parser) :
    (∀ big small : Nat, (p.setRumbleOn big small).ps4Output.reportChanged = true) ∧
    (∀ mode : RumbleEnum, (p.setRumbleOnMode mode).ps4Output.reportChanged = true) ∧
    p.setRumbleOff.ps4Output.reportChanged = true ∧
    (∀ r g b : Nat, (p.setLed r g b).ps4Output.reportChanged = true) ∧
    (∀ color : Nat, (p.setLedColor color).ps4Output.reportChanged = true) ∧
    p.setLedOff.ps4Output.reportChanged = true ∧
    (∀ flashOn flashOff : Nat, (p.setLedFlash flashOn flashOff).ps4Output.reportChanged = true) ∧
    p.setAllOff.ps4Output.reportChanged = true ∧
    (p.setRumbleOn p.ps4Output.bigRumble p.ps4Output.smallRumble).ps4Output.reportChanged = true ∧
    (p.setLed p.ps4Output.r p.ps4Output.g p.ps4Output.b).ps4Output.reportChanged = true ∧
    (p.setLedFlash p.ps4Output.flashOn p.ps4Output.flashOff).ps4Output.reportChanged = true := by
  refine ⟨fun _ _ => rfl, ?_, rfl, fun _ _ _ => rfl, fun _ => rfl, rfl, fun _ _ => rfl, rfl,
    rfl, rfl, rfl⟩
  intro mode
  cases mode <;> rfl

/-- C3 as stated fails: on the all-zero state setRumbleOn(RumbleHigh) stores
(bigRumble, smallRumble) = (255, 0), not (0, 255), and setRumbleOn(RumbleLow)
stores (0, 255), not (255, 0). -/
theorem setRumbleOnMode_not_as_stated :
    ((PS4Parser.zero.setRumbleOnMode RumbleEnum.RumbleHigh).ps4Output.bigRumble,
      (PS4Parser.zero.setRumbleOnMode RumbleEnum.RumbleHigh).ps4Output.smallRumble) ≠ (0, 255) ∧
    ((PS4Parser.zero.setRumbleOnMode RumbleEnum.RumbleLow).ps4Output.bigRumble,
      (PS4Parser.zero.setRumbleOnMode RumbleEnum.RumbleLow).ps4Output.smallRumble) ≠ (255, 0) := by
  decide

/-- C3, amended: setRumbleOn(RumbleHigh) stores (bigRumble, smallRumble) = (255, 0)
and setRumbleOn(RumbleLow) stores (0, 255), and both mark the report changed. -/
theorem setRumbleOnMode_presets (p : PS4Parser) :
    ((p.setRumbleOnMode RumbleEnum.RumbleHigh).ps4Output.bigRumble = 255 ∧
      (p.setRumbleOnMode RumbleEnum.RumbleHigh).ps4Output.smallRumble = 0) ∧
    ((p.setRumbleOnMode RumbleEnum.RumbleLow).ps4Output.bigRumble = 0 ∧
      (p.setRumbleOnMode RumbleEnum.RumbleLow).ps4Output.smallRumble = 255) ∧
    (p.setRumbleOnMode RumbleEnum.RumbleHigh).ps4Output.reportChanged = true ∧
    (p.setRumbleOnMode RumbleEnum.RumbleLow).ps4Output.reportChanged = true :=
  ⟨⟨rfl, rfl⟩, ⟨rfl, rfl⟩, rfl, rfl⟩

/-- C4: for every prior state, after setAllOff the output report has
bigRumble = 0, smallRumble = 0, r = 0, g = 0, b = 0 and reportChanged = true. -/
theorem setAllOff_zeroes (p : PS4Parser) :
    p.setAllOff.ps4Output.bigRumble = 0 ∧
    p.setAllOff.ps4Output.smallRumble = 0 ∧
    p.setAllOff.ps4Output.r = 0 ∧
    p.setAllOff.ps4Output.g = 0 ∧
    p.setAllOff.ps4Output.b = 0 ∧
    p.setAllOff.ps4Output.reportChanged = true :=
  ⟨rfl, rfl, rfl, rfl, rfl, rfl⟩

/-! ## Sensor and touchpad view -/

/-- C5: for every report, finger index and sample index, isTouching is true
exactly when the touching bit-field of that finger record is 0; on a report laid
over a byte block this is exactly when the top bit of the first byte of the
finger record is clear. -/
theorem isTouching_active_low (p : PS4Parser) (finger : Fin 2) (xyId : Fin 3) :
    (p.isTouching finger xyId = true ↔ ((p.ps4Data.xy xyId).finger finger).touching = 0) ∧
    (∀ buf : List Nat,
      PS4Parser.isTouching { p with ps4Data := PS4Data.ofBytes buf } finger xyId = true ↔
        byteAt buf (33 + 9 * xyId.val + 1 + 4 * finger.val) / 128 = 0) := by
  constructor
  · simp [PS4Parser.isTouching]
  · intro buf
    simp [PS4Parser.isTouching, PS4Data.ofBytes, touchpadXYAt, fingerAt]

/-- C8: getSensor returns the stored value of the named axis, and 0 for every
SensorEnum value other than the six axes. -/
theorem getSensor_axes (p : PS4Parser) :
    p.getSensor SensorEnum.gX = p.ps4Data.gyroX ∧
    p.getSensor SensorEnum.gY = p.ps4Data.gyroY ∧
    p.getSensor SensorEnum.gZ = p.ps4Data.gyroZ ∧
    p.getSensor SensorEnum.aX = p.ps4Data.accX ∧
    p.getSensor SensorEnum.aY = p.ps4Data.accY ∧
    p.getSensor SensorEnum.aZ = p.ps4Data.accZ ∧
    (∀ s : SensorEnum,
      s ≠ SensorEnum.gX → s ≠ SensorEnum.gY → s ≠ SensorEnum.gZ →
      s ≠ SensorEnum.aX → s ≠ SensorEnum.aY → s ≠ SensorEnum.aZ →
      p.getSensor s = 0) := by
  refine ⟨rfl, rfl, rfl, rfl, rfl, rfl, ?_⟩
  intro s h1 h2 h3 h4 h5 h6
  cases s <;> first | rfl | contradiction

/-- C8 at an enumerator that is none of the six axes. -/
theorem getSensor_axes_witness :
    (PS4Parser.zero.withAcc 3 (-4) 5).getSensor SensorEnum.aY = -4 ∧
    (PS4Parser.zero.withAcc 3 (-4) 5).getSensor (SensorEnum.other 28) = 0 :=
  ⟨(getSensor_axes (PS4Parser.zero.withAcc 3 (-4) 5)).2.2.2.2.1,
    (getSensor_axes (PS4Parser.zero.withAcc 3 (-4) 5)).2.2.2.2.2.2 (SensorEnum.other 28)
      (by decide) (by decide) (by decide) (by decide) (by decide) (by decide)⟩

/-! ## Tilt angle -/

/-- The angle formula shared by both branches of getAngle lies in (0, 360]. -/
theorem angle_formula_range (y z : ℝ) :
    0 < (atan2f y z + PI) * RAD_TO_DEG ∧ (atan2f y z + PI) * RAD_TO_DEG ≤ 360 := by
  have hpi : 0 < Real.pi := Real.pi_pos
  have hlo : -Real.pi < Complex.arg ⟨z, y⟩ := Complex.neg_pi_lt_arg _
  have hhi : Complex.arg ⟨z, y⟩ ≤ Real.pi := Complex.arg_le_pi _
  have hk : 0 < 180 / Real.pi := by positivity
  unfold atan2f PI RAD_TO_DEG
  constructor
  · apply mul_pos _ hk
    linarith
  · have h360 : (Real.pi + Real.pi) * (180 / Real.pi) = 360 := by
      field_simp
      ring
    calc (Complex.arg ⟨z, y⟩ + Real.pi) * (180 / Real.pi)
        ≤ (Real.pi + Real.pi) * (180 / Real.pi) :=
          mul_le_mul_of_nonneg_right (by linarith) hk.le
      _ = 360 := h360

/-- The angle formula is 360 exactly when the point lies on the negative z axis. -/
theorem angle_formula_eq_360 (y z : ℝ) :
    (atan2f y z + PI) * RAD_TO_DEG = 360 ↔ (y = 0 ∧ z < 0) := by
  have hpi : 0 < Real.pi := Real.pi_pos
  have hne : Real.pi ≠ 0 := hpi.ne'
  have harg : Complex.arg ⟨z, y⟩ = Real.pi ↔ (y = 0 ∧ z < 0) := by
    rw [Complex.arg_eq_pi_iff]
    exact and_comm
  unfold atan2f PI RAD_TO_DEG
  rw [← harg]
  constructor
  · intro h
    have h2 : (Complex.arg ⟨z, y⟩ + Real.pi) * 180 = 360 * Real.pi := by
      field_simp at h
      linarith
    linarith
  · intro h
    rw [h]
    field_simp
    ring

/-- The angle formula is 180 on the positive z axis. -/
theorem angle_formula_eq_180 (z : ℝ) (hz : 0 < z) :
    (atan2f 0 z + PI) * RAD_TO_DEG = 180 := by
  have hne : Real.pi ≠ 0 := Real.pi_pos.ne'
  have harg : Complex.arg ⟨z, 0⟩ = 0 := Complex.arg_ofReal_of_nonneg hz.le
  unfold atan2f PI RAD_TO_DEG
  rw [harg]
  field_simp

/-- C9 as stated fails: with accX = accY = 0 and accZ = -1 both angles are 360,
which is outside [0, 360). -/
theorem getAngle_reaches_360 :
    (PS4Parser.zero.withAcc 0 0 (-1)).getAngle AngleEnum.Pitch = 360 ∧
    (PS4Parser.zero.withAcc 0 0 (-1)).getAngle AngleEnum.Roll = 360 ∧
    ¬ ((PS4Parser.zero.withAcc 0 0 (-1)).getAngle AngleEnum.Pitch < 360) ∧
    ¬ ((PS4Parser.zero.withAcc 0 0 (-1)).getAngle AngleEnum.Roll < 360) := by
  have h : (atan2f (0 : ℝ) (-1 : ℝ) + PI) * RAD_TO_DEG = 360 :=
    (angle_formula_eq_360 0 (-1)).2 ⟨rfl, by norm_num⟩
  have hp : (PS4Parser.zero.withAcc 0 0 (-1)).getAngle AngleEnum.Pitch = 360 := by
    simpa [PS4Parser.getAngle, PS4Parser.withAcc] using h
  have hr : (PS4Parser.zero.withAcc 0 0 (-1)).getAngle AngleEnum.Roll = 360 := by
    simpa [PS4Parser.getAngle, PS4Parser.withAcc] using h
  refine ⟨hp, hr, ?_, ?_⟩
  · rw [hp]; exact lt_irrefl _
  · rw [hr]; exact lt_irrefl _

/-- C9, amended: for every accelerometer reading, getAngle(Pitch) =
(atan2(accY, accZ) + π)·180/π and getAngle(Roll) = (atan2(accX, accZ) + π)·180/π
both lie in (0, 360]: above 0, at most 360, and equal to 360 exactly when the
first axis is 0 and accZ is negative. -/
theorem getAngle_range (p : PS4Parser) :
    (0 < p.getAngle AngleEnum.Pitch ∧ p.getAngle AngleEnum.Pitch ≤ 360) ∧
    (0 < p.getAngle AngleEnum.Roll ∧ p.getAngle AngleEnum.Roll ≤ 360) ∧
    (p.getAngle AngleEnum.Pitch = 360 ↔ (p.ps4Data.accY = 0 ∧ p.ps4Data.accZ < 0)) ∧
    (p.getAngle AngleEnum.Roll = 360 ↔ (p.ps4Data.accX = 0 ∧ p.ps4Data.accZ < 0)) := by
  refine ⟨?_, ?_, ?_, ?_⟩
  · simpa [PS4Parser.getAngle] using angle_formula_range p.ps4Data.accY p.ps4Data.accZ
  · simpa [PS4Parser.getAngle] using angle_formula_range p.ps4Data.accX p.ps4Data.accZ
  · simpa [PS4Parser.getAngle] using angle_formula_eq_360 p.ps4Data.accY p.ps4Data.accZ
  · simpa [PS4Parser.getAngle] using angle_formula_eq_360 p.ps4Data.accX p.ps4Data.accZ

/-- C10: with accY = 0 and accZ > 0 getAngle(Pitch) is exactly 180 degrees, and
with accX = 0 and accZ > 0 getAngle(Roll) is exactly 180 degrees. -/
theorem getAngle_level (p : PS4Parser) (hz : 0 < p.ps4Data.accZ) :
    (p.ps4Data.accY = 0 → p.getAngle AngleEnum.Pitch = 180) ∧
    (p.ps4Data.accX = 0 → p.getAngle AngleEnum.Roll = 180) := by
  have hzr : (0 : ℝ) < (p.ps4Data.accZ : ℝ) := by exact_mod_cast hz
  constructor
  · intro hy
    simpa [PS4Parser.getAngle, hy] using angle_formula_eq_180 _ hzr
  · intro hx
    simpa [PS4Parser.getAngle, hx] using angle_formula_eq_180 _ hzr

/-- C10 at the reading accX = 0, accY = 0, accZ = 8192. -/
theorem getAngle_level_witness :
    0 < (PS4Parser.zero.withAcc 0 0 8192).ps4Data.accZ ∧
    (PS4Parser.zero.withAcc 0 0 8192).getAngle AngleEnum.Pitch = 180 ∧
    (PS4Parser.zero.withAcc 0 0 8192).getAngle AngleEnum.Roll = 180 :=
  ⟨by decide,
    (getAngle_level (PS4Parser.zero.withAcc 0 0 8192) (by decide)).1 rfl,
    (getAngle_level (PS4Parser.zero.withAcc 0 0 8192) (by decide)).2 rfl⟩

/-! ## Button edge tracker -/

/-- Bit i of a & ~b, for a bit of a PS4Buttons value. -/
theorem testBit_andNot (a b i : Nat) (hi : i < 24) :
    (andNot a b).testBit i = (a.testBit i && !b.testBit i) := by
  have hones : (0xFFFFFF : Nat) = 2 ^ 24 - 1 := by norm_num
  unfold andNot
  rw [Nat.testBit_and, Nat.testBit_xor, hones, Nat.testBit_two_pow_sub_one,
    Nat.testBit_mod_two_pow]
  simp [hi]

/-- Every button has its bit inside the 24-bit value. -/
theorem buttonBit_lt (b : ButtonEnum) : buttonBit b < 24 := by
  cases b <;> decide

/-- Distinct buttons have distinct bits. -/
theorem buttonBit_injective (b c : ButtonEnum) (h : buttonBit b = buttonBit c) : b = c := by
  revert h
  cases b <;> cases c <;> decide

/-- The latch bit of b after polling c. -/
theorem latch_after_poll (p : PS4Parser) (b c : ButtonEnum) :
    ((p.getButtonClick c).2).buttonClickState.val.testBit (buttonBit b) =
      (p.buttonClickState.val.testBit (buttonBit b) && decide (b ≠ c)) := by
  unfold PS4Parser.getButtonClick
  simp only []
  rw [testBit_andNot _ _ _ (buttonBit_lt b), Nat.one_shiftLeft, Nat.testBit_two_pow]
  by_cases hbc : b = c
  · subst hbc; simp
  · have hne : buttonBit c ≠ buttonBit b := fun h => hbc (buttonBit_injective _ _ h.symm)
    simp [hbc, hne]

/-- The latch bit of b after a frame. -/
theorem latch_after_frame (p : PS4Parser) (len : Nat) (buf : List Nat) (b : ButtonEnum) :
    ((p.Parse len buf).2).buttonClickState.val.testBit (buttonBit b) =
      (p.buttonClickState.val.testBit (buttonBit b) ||
        risingEdge b p (Event.frame len buf)) := by
  unfold PS4Parser.Parse risingEdge
  by_cases hlen : len % 256 = reportSize
  · simp only [hlen, ne_eq, not_true_eq_false, if_false, decide_True, Bool.true_and]
    rw [Nat.testBit_or, testBit_andNot _ _ _ (buttonBit_lt b)]
    simp only [PS4Parser.getButtonPress, pressedIn]
    cases (snapshot (PS4Data.ofBytes buf)).testBit (buttonBit b) <;>
      cases p.oldButtonState.val.testBit (buttonBit b) <;> simp
  · simp [hlen]

/-- The held bit of b after a frame: the new snapshot bit on a frame of the report
size, unchanged otherwise. -/
theorem press_after_frame (p : PS4Parser) (len : Nat) (buf : List Nat) (b : ButtonEnum) :
    ((p.Parse len buf).2).getButtonPress b =
      if len % 256 = reportSize then pressedIn (PS4Data.ofBytes buf) b
      else p.getButtonPress b := by
  unfold PS4Parser.Parse
  by_cases hlen : len % 256 = reportSize
  · simp [hlen, PS4Parser.getButtonPress, pressedIn]
  · simp [hlen]

/-- Polling a click does not change which buttons are held. -/
theorem press_after_poll (p : PS4Parser) (b c : ButtonEnum) :
    ((p.getButtonClick c).2).getButtonPress b = p.getButtonPress b := rfl

/-- A set latch bit stays set while its button is not polled. -/
theorem latch_survives (b : ButtonEnum) (es : List Event) :
    ∀ p : PS4Parser, p.buttonClickState.val.testBit (buttonBit b) = true →
      (∀ e ∈ es, e ≠ Event.poll b) →
      (p.run es).buttonClickState.val.testBit (buttonBit b) = true := by
  induction es with
  | nil => intro p h _; exact h
  | cons e es ih =>
    intro p h hq
    apply ih (p.step e)
    · cases e with
      | frame len buf =>
        show ((p.Parse len buf).2).buttonClickState.val.testBit (buttonBit b) = true
        rw [latch_after_frame, h, Bool.true_or]
      | poll c =>
        show ((p.getButtonClick c).2).buttonClickState.val.testBit (buttonBit b) = true
        have hbc : b ≠ c := fun hbc => hq (Event.poll c) (List.mem_cons_self _ _) (by rw [hbc])
        rw [latch_after_poll, h]
        simp [hbc]
    · intro e' he'
      exact hq e' (List.mem_cons_of_mem _ he')

/-- A clear latch bit stays clear while its button has no rising edge. -/
theorem latch_stays_clear (b : ButtonEnum) (es : List Event) :
    ∀ p : PS4Parser, p.buttonClickState.val.testBit (buttonBit b) = false →
      noRisingEdge b p es = true →
      (p.run es).buttonClickState.val.testBit (buttonBit b) = false := by
  induction es with
  | nil => intro p h _; exact h
  | cons e es ih =>
    intro p h hn
    simp only [noRisingEdge, Bool.and_eq_true, Bool.not_eq_true'] at hn
    apply ih (p.step e) _ hn.2
    cases e with
    | frame len buf =>
      show ((p.Parse len buf).2).buttonClickState.val.testBit (buttonBit b) = false
      rw [latch_after_frame, h, hn.1, Bool.false_or]
    | poll c =>
      show ((p.getButtonClick c).2).buttonClickState.val.testBit (buttonBit b) = false
      rw [latch_after_poll, h, Bool.false_and]

/-- A held button stays held while every frame shows it pressed. -/
theorem press_stays (b : ButtonEnum) (es : List Event) :
    ∀ p : PS4Parser, p.getButtonPress b = true → keepsHeld b es = true →
      (p.run es).getButtonPress b = true := by
  induction es with
  | nil => intro p h _; exact h
  | cons e es ih =>
    intro p h hk
    cases e with
    | frame len buf =>
      simp only [keepsHeld, Bool.and_eq_true, decide_eq_true_eq] at hk
      apply ih _ _ hk.2
      show ((p.Parse len buf).2).getButtonPress b = true
      rw [press_after_frame, if_pos hk.1.1, hk.1.2]
    | poll c =>
      simp only [keepsHeld] at hk
      exact ih _ (by rw [← h]; rfl) hk

/-- C6: after a decode in which button b goes from released to pressed, and any
further frames and polls of other buttons (es), the first getButtonClick(b)
returns true; after it, through any events without a new released-to-pressed
transition of b (later), getButtonClick(b) returns false; and getButtonPress(b)
returns true after the decode and through every run of frames that show b
pressed (held). -/
theorem getButtonClick_once_per_press (p : PS4Parser) (buf : List Nat) (b : ButtonEnum)
    (es later held : List Event)
    (hreleased : p.getButtonPress b = false)
    (hpressed : pressedIn (PS4Data.ofBytes buf) b = true)
    (hunpolled : ∀ e ∈ es, e ≠ Event.poll b)
    (hnoedge : noRisingEdge b
      (((((p.Parse reportSize buf).2).run es).getButtonClick b).2) later = true)
    (hheld : keepsHeld b held = true) :
    ((((p.Parse reportSize buf).2).run es).getButtonClick b).1 = true ∧
    (((((((p.Parse reportSize buf).2).run es).getButtonClick b).2).run later).getButtonClick b).1
      = false ∧
    ((p.Parse reportSize buf).2).getButtonPress b = true ∧
    (((p.Parse reportSize buf).2).run held).getButtonPress b = true := by
  have hsize : reportSize % 256 = reportSize := by decide
  have hedge : risingEdge b p (Event.frame reportSize buf) = true := by
    simp [risingEdge, hsize, hreleased, hpressed]
  have hlatch : ((p.Parse reportSize buf).2).buttonClickState.val.testBit (buttonBit b) = true := by
    rw [latch_after_frame, hedge, Bool.or_true]
  have hnow : ((p.Parse reportSize buf).2).getButtonPress b = true := by
    rw [press_after_frame, if_pos hsize, hpressed]
  refine ⟨?_, ?_, hnow, press_stays b held _ hnow hheld⟩
  · exact latch_survives b es _ hlatch hunpolled
  · apply latch_stays_clear b later _ _ hnoedge
    rw [latch_after_poll]
    simp

/-- C6 on a concrete run: cross is pressed, then released and pressed again with
only square polled in between and a frame of length 0 arriving; the first poll of
cross is true. Cross then stays held for a frame, is polled, and is released; the
next poll of cross is false. -/
theorem getButtonClick_once_per_press_witness :
    (PS4Parser.zero.getButtonPress ButtonEnum.CROSS = false ∧
      pressedIn (PS4Data.ofBytes crossFrame) ButtonEnum.CROSS = true) ∧
    ((((PS4Parser.zero.Parse reportSize crossFrame).2).run
        [Event.frame 60 idleFrame, Event.poll ButtonEnum.SQUARE, Event.frame 60 crossFrame,
          Event.frame 0 []]).getButtonClick ButtonEnum.CROSS).1 = true ∧
    (((((((PS4Parser.zero.Parse reportSize crossFrame).2).run
        [Event.frame 60 idleFrame, Event.poll ButtonEnum.SQUARE, Event.frame 60 crossFrame,
          Event.frame 0 []]).getButtonClick ButtonEnum.CROSS).2).run
        [Event.frame 60 crossFrame, Event.poll ButtonEnum.CROSS,
          Event.frame 60 idleFrame]).getButtonClick ButtonEnum.CROSS).1 = false ∧
    ((PS4Parser.zero.Parse reportSize crossFrame).2).getButtonPress ButtonEnum.CROSS = true ∧
    (((PS4Parser.zero.Parse reportSize crossFrame).2).run
        [Event.frame 60 crossFrame, Event.poll ButtonEnum.CROSS,
          Event.frame 60 crossFrame]).getButtonPress ButtonEnum.CROSS = true :=
  ⟨by decide,
    getButtonClick_once_per_press PS4Parser.zero crossFrame ButtonEnum.CROSS
      [Event.frame 60 idleFrame, Event.poll ButtonEnum.SQUARE, Event.frame 60 crossFrame,
        Event.frame 0 []]
      [Event.frame 60 crossFrame, Event.poll ButtonEnum.CROSS, Event.frame 60 idleFrame]
      [Event.frame 60 crossFrame, Event.poll ButtonEnum.CROSS, Event.frame 60 crossFrame]
      (by decide) (by decide) (by decide) (by decide) (by decide)⟩

/-! ## Report decoder -/

/-- C7: a length other than the report size makes Parse fail with MalformedReport
and leaves the decoded report, and so getBatteryLevel, as before the call. -/
theorem Parse_rejects_wrong_length (p : PS4Parser) (len : Nat) (buf : List Nat)
    (hbyte : len < 256) (hlen : len ≠ reportSize) :
    (p.Parse len buf).1 = DecodeResult.MalformedReport ∧
    (p.Parse len buf).2 = p ∧
    ((p.Parse len buf).2).getBatteryLevel = p.getBatteryLevel := by
  have hmod : len % 256 ≠ reportSize := by
    rw [Nat.mod_eq_of_lt hbyte]; exact hlen
  simp [PS4Parser.Parse, hmod]

/-- C7 on a concrete run: after a decode that stored battery level 7, a buffer of
length 0 is rejected and the battery level is still 7. -/
theorem Parse_rejects_wrong_length_witness :
    ((0 : Nat) < 256 ∧ (0 : Nat) ≠ reportSize) ∧
    batterySeven.getBatteryLevel = 7 ∧
    (batterySeven.Parse 0 []).1 = DecodeResult.MalformedReport ∧
    ((batterySeven.Parse 0 []).2).getBatteryLevel = 7 :=
  ⟨by decide, by decide,
    (Parse_rejects_wrong_length batterySeven 0 [] (by decide) (by decide)).1,
    (Parse_rejects_wrong_length batterySeven 0 [] (by decide) (by decide)).2.2.trans
      (by decide)⟩

/-! ## Layout of the report -/

/-- A byte read from a buffer is below 256. -/
theorem byteAt_lt (buf : List Nat) (i : Nat) : byteAt buf i < 256 :=
  Nat.mod_lt _ (by decide)

/-- C11: for every report laid over a byte block, every finger index and every
sample index, getX and getY are at most 4095; and on every state each returns
the stored field x or y of that finger record unchanged. -/
theorem getX_getY_twelve_bit (p : PS4Parser) (finger : Fin 2) (xyId : Fin 3) :
    (∀ buf : List Nat,
      (p.withReport buf).getX finger xyId ≤ 4095 ∧
      (p.withReport buf).getY finger xyId ≤ 4095) ∧
    p.getX finger xyId = ((p.ps4Data.xy xyId).finger finger).x ∧
    p.getY finger xyId = ((p.ps4Data.xy xyId).finger finger).y ∧
    (∀ buf : List Nat,
      (p.withReport buf).getX finger xyId =
        fingerWord buf (33 + 9 * xyId.val + 1 + 4 * finger.val) / 2 ^ 8 % 2 ^ 12 ∧
      (p.withReport buf).getY finger xyId =
        fingerWord buf (33 + 9 * xyId.val + 1 + 4 * finger.val) / 2 ^ 20 % 2 ^ 12) := by
  refine ⟨?_, rfl, rfl, ?_⟩
  · intro buf
    have h1 := byteAt_lt buf (33 + 9 * xyId.val + 1 + 4 * finger.val + 1)
    have h2 := byteAt_lt buf (33 + 9 * xyId.val + 1 + 4 * finger.val + 2)
    have h3 := byteAt_lt buf (33 + 9 * xyId.val + 1 + 4 * finger.val + 3)
    simp only [PS4Parser.getX, PS4Parser.getY, PS4Parser.withReport, PS4Data.ofBytes,
      touchpadXYAt, fingerAt]
    constructor <;> omega
  · intro buf
    have h0 := byteAt_lt buf (33 + 9 * xyId.val + 1 + 4 * finger.val)
    have h1 := byteAt_lt buf (33 + 9 * xyId.val + 1 + 4 * finger.val + 1)
    have h2 := byteAt_lt buf (33 + 9 * xyId.val + 1 + 4 * finger.val + 2)
    have h3 := byteAt_lt buf (33 + 9 * xyId.val + 1 + 4 * finger.val + 3)
    simp only [PS4Parser.getX, PS4Parser.getY, PS4Parser.withReport, PS4Data.ofBytes,
      touchpadXYAt, fingerAt, fingerWord]
    constructor <;> omega

/-- C12 as stated fails. In a frame whose only non-zero byte is the second button
byte (position 5), the flags L1 .. R3 are all set although the byte after it is 0,
and no shape flag is set although the low four bits of that byte are ones. In a
frame whose only non-zero byte is the one after the three button bytes
(position 7), the PS flag, the touchpad flag and the report counter are all 0 and
the byte shows as trigger[0]. -/
theorem button_block_not_as_stated :
    ((PS4Data.ofBytes (frameWith 5 0xFF)).btn.l1 = 1 ∧
      (PS4Data.ofBytes (frameWith 5 0xFF)).btn.r1 = 1 ∧
      (PS4Data.ofBytes (frameWith 5 0xFF)).btn.l2 = 1 ∧
      (PS4Data.ofBytes (frameWith 5 0xFF)).btn.r2 = 1 ∧
      (PS4Data.ofBytes (frameWith 5 0xFF)).btn.share = 1 ∧
      (PS4Data.ofBytes (frameWith 5 0xFF)).btn.options = 1 ∧
      (PS4Data.ofBytes (frameWith 5 0xFF)).btn.l3 = 1 ∧
      (PS4Data.ofBytes (frameWith 5 0xFF)).btn.r3 = 1 ∧
      byteAt (frameWith 5 0xFF) 6 = 0) ∧
    ((PS4Data.ofBytes (frameWith 5 0xFF)).btn.square = 0 ∧
      (PS4Data.ofBytes (frameWith 5 0xFF)).btn.cross = 0 ∧
      (PS4Data.ofBytes (frameWith 5 0xFF)).btn.circle = 0 ∧
      (PS4Data.ofBytes (frameWith 5 0xFF)).btn.triangle = 0 ∧
      byteAt (frameWith 5 0xFF) 5 % 16 = 15) ∧
    ((PS4Data.ofBytes (frameWith 7 0xFF)).btn.ps = 0 ∧
      (PS4Data.ofBytes (frameWith 7 0xFF)).btn.touchpad = 0 ∧
      (PS4Data.ofBytes (frameWith 7 0xFF)).btn.reportCounter = 0 ∧
      (PS4Data.ofBytes (frameWith 7 0xFF)).trigger 0 = 255) := by
  decide

/-- C12, amended: the button block is three bytes. The D-pad occupies the low 4
bits of the first button byte and the four shape-button flags (square, cross,
circle, triangle) its high 4 bits; the L1, R1, L2, R2, Share, Options, L3, R3
flags occupy the next byte, one bit each from the lowest; the PS flag, the
touchpad-click flag and the 6-bit report counter occupy the byte after that. The
three bytes sit at positions 4, 5, 6 of the data block, after the four hat bytes
and before the two trigger bytes. -/
theorem button_block_layout (buf : List Nat) :
    ((PS4Data.ofBytes buf).btn.dpad = byteAt buf 4 % 16 ∧
      (PS4Data.ofBytes buf).btn.square = byteAt buf 4 / 16 % 2 ∧
      (PS4Data.ofBytes buf).btn.cross = byteAt buf 4 / 32 % 2 ∧
      (PS4Data.ofBytes buf).btn.circle = byteAt buf 4 / 64 % 2 ∧
      (PS4Data.ofBytes buf).btn.triangle = byteAt buf 4 / 128) ∧
    ((PS4Data.ofBytes buf).btn.l1 = byteAt buf 5 % 2 ∧
      (PS4Data.ofBytes buf).btn.r1 = byteAt buf 5 / 2 % 2 ∧
      (PS4Data.ofBytes buf).btn.l2 = byteAt buf 5 / 4 % 2 ∧
      (PS4Data.ofBytes buf).btn.r2 = byteAt buf 5 / 8 % 2 ∧
      (PS4Data.ofBytes buf).btn.share = byteAt buf 5 / 16 % 2 ∧
      (PS4Data.ofBytes buf).btn.options = byteAt buf 5 / 32 % 2 ∧
      (PS4Data.ofBytes buf).btn.l3 = byteAt buf 5 / 64 % 2 ∧
      (PS4Data.ofBytes buf).btn.r3 = byteAt buf 5 / 128) ∧
    ((PS4Data.ofBytes buf).btn.ps = byteAt buf 6 % 2 ∧
      (PS4Data.ofBytes buf).btn.touchpad = byteAt buf 6 / 2 % 2 ∧
      (PS4Data.ofBytes buf).btn.reportCounter = byteAt buf 6 / 4) ∧
    ((∀ i : Fin 4, (PS4Data.ofBytes buf).hatValue i = byteAt buf i.val) ∧
      (∀ i : Fin 2, (PS4Data.ofBytes buf).trigger i = byteAt buf (7 + i.val))) := by
  have h4 := byteAt_lt buf 4
  have h5 := byteAt_lt buf 5
  have h6 := byteAt_lt buf 6
  simp only [PS4Data.ofBytes, PS4Buttons.dpad, PS4Buttons.square, PS4Buttons.cross,
    PS4Buttons.circle, PS4Buttons.triangle, PS4Buttons.l1, PS4Buttons.r1, PS4Buttons.l2,
    PS4Buttons.r2, PS4Buttons.share, PS4Buttons.options, PS4Buttons.l3, PS4Buttons.r3,
    PS4Buttons.ps, PS4Buttons.touchpad, PS4Buttons.reportCounter]
  refine ⟨⟨?_, ?_, ?_, ?_, ?_⟩, ⟨?_, ?_, ?_, ?_, ?_, ?_, ?_, ?_⟩, ⟨?_, ?_, ?_⟩,
    ⟨fun _ => trivial, fun _ => trivial⟩⟩ <;> omega

/-- C13: on every byte block laid over PS4Data the six motion values are the
consecutive little-endian signed 16-bit words at byte offsets 12, 14, 16 (gyroY,
gyroZ, gyroX) and 18, 20, 22 (accX, accZ, accY), so getSensor(gY) reads the first
gyroscope word, getSensor(gZ) the second, getSensor(gX) the third, getSensor(aX)
the first accelerometer word, getSensor(aZ) the second and getSensor(aY) the
third; each word is the two's complement reading of low byte + 256 · high byte. -/
theorem motion_words_layout (p : PS4Parser) (buf : List Nat) :
    ((p.withReport buf).getSensor SensorEnum.gY = int16At buf 12 ∧
      (p.withReport buf).getSensor SensorEnum.gZ = int16At buf 14 ∧
      (p.withReport buf).getSensor SensorEnum.gX = int16At buf 16 ∧
      (p.withReport buf).getSensor SensorEnum.aX = int16At buf 18 ∧
      (p.withReport buf).getSensor SensorEnum.aZ = int16At buf 20 ∧
      (p.withReport buf).getSensor SensorEnum.aY = int16At buf 22) ∧
    (∀ i : Nat,
      -32768 ≤ int16At buf i ∧ int16At buf i ≤ 32767 ∧
      int16At buf i % 65536 = ((byteAt buf i + 256 * byteAt buf (i + 1) : Nat) : Int) ∧
      (int16At buf i < 0 ↔ 128 ≤ byteAt buf (i + 1))) := by
  refine ⟨⟨rfl, rfl, rfl, rfl, rfl, rfl⟩, ?_⟩
  intro i
  have h0 := byteAt_lt buf i
  have h1 := byteAt_lt buf (i + 1)
  unfold int16At uint16At
  split <;> omega

/-- C13 on a concrete block: the words FFFE, 0001, 8000 at offsets 12, 14, 16 and
7FFF, 0000, FF00 at offsets 18, 20, 22. -/
theorem motion_words_example :
    (PS4Parser.zero.withReport
        [0, 0, 0, 0, 0, 0, 0, 0, 0, 0, 0, 0,
          0xFE, 0xFF, 0x01, 0x00, 0x00, 0x80, 0xFF, 0x7F, 0x00, 0x00, 0x00, 0xFF]).getSensor
      SensorEnum.gY = -2 ∧
    (PS4Parser.zero.withReport
        [0, 0, 0, 0, 0, 0, 0, 0, 0, 0, 0, 0,
          0xFE, 0xFF, 0x01, 0x00, 0x00, 0x80, 0xFF, 0x7F, 0x00, 0x00, 0x00, 0xFF]).getSensor
      SensorEnum.gX = -32768 ∧
    (PS4Parser.zero.withReport
        [0, 0, 0, 0, 0, 0, 0, 0, 0, 0, 0, 0,
          0xFE, 0xFF, 0x01, 0x00, 0x00, 0x80, 0xFF, 0x7F, 0x00, 0x00, 0x00, 0xFF]).getSensor
      SensorEnum.aX = 32767 ∧
    (PS4Parser.zero.withReport
        [0, 0, 0, 0, 0, 0, 0, 0, 0, 0, 0, 0,
          0xFE, 0xFF, 0x01, 0x00, 0x00, 0x80, 0xFF, 0x7F, 0x00, 0x00, 0x00, 0xFF]).getSensor
      SensorEnum.aY = -256 := by
  decide

/-- C14: with s the status byte (position 29 of the data block), getBatteryLevel
returns s mod 16, which is at most 15, getUsbStatus returns bit 4 of s,
getAudioStatus bit 5 and getMicStatus bit 6; two blocks whose status bytes agree
below the top bit give the same four results. -/
theorem status_accessors (p : PS4Parser) (buf : List Nat) :
    ((p.withReport buf).getBatteryLevel = byteAt buf 29 % 16 ∧
      (p.withReport buf).getBatteryLevel ≤ 15 ∧
      (p.withReport buf).getUsbStatus = (byteAt buf 29).testBit 4 ∧
      (p.withReport buf).getAudioStatus = (byteAt buf 29).testBit 5 ∧
      (p.withReport buf).getMicStatus = (byteAt buf 29).testBit 6) ∧
    (∀ other : List Nat, byteAt other 29 % 128 = byteAt buf 29 % 128 →
      (p.withReport other).getBatteryLevel = (p.withReport buf).getBatteryLevel ∧
      (p.withReport other).getUsbStatus = (p.withReport buf).getUsbStatus ∧
      (p.withReport other).getAudioStatus = (p.withReport buf).getAudioStatus ∧
      (p.withReport other).getMicStatus = (p.withReport buf).getMicStatus) := by
  have hbit : ∀ s k : Nat, (s / 2 ^ k % 2 != 0) = s.testBit k := by
    intro s k
    rw [Nat.testBit_to_div_mod]
    rcases Nat.mod_two_eq_zero_or_one (s / 2 ^ k) with h | h <;> simp [h]
  have hs := byteAt_lt buf 29
  refine ⟨⟨rfl, ?_, hbit _ 4, hbit _ 5, hbit _ 6⟩, ?_⟩
  · show byteAt buf 29 % 16 ≤ 15
    omega
  · intro other h
    have ho := byteAt_lt other 29
    simp only [PS4Parser.getBatteryLevel, PS4Parser.getUsbStatus, PS4Parser.getAudioStatus,
      PS4Parser.getMicStatus, PS4Parser.withReport, PS4Data.ofBytes, statusAt]
    have e1 : byteAt other 29 % 16 = byteAt buf 29 % 16 := by omega
    have e2 : byteAt other 29 / 16 % 2 = byteAt buf 29 / 16 % 2 := by omega
    have e3 : byteAt other 29 / 32 % 2 = byteAt buf 29 / 32 % 2 := by omega
    have e4 : byteAt other 29 / 64 % 2 = byteAt buf 29 / 64 % 2 := by omega
    rw [e1, e2, e3, e4]
    exact ⟨rfl, rfl, rfl, rfl⟩

/-- C14 on two concrete status bytes that differ only in the top bit: 0x57 and
0xD7 both give battery 7, USB connected, no audio, microphone connected. -/
theorem status_accessors_example :
    (PS4Parser.zero.withReport (frameWith 29 0xD7)).getBatteryLevel = 7 ∧
    (PS4Parser.zero.withReport (frameWith 29 0xD7)).getUsbStatus = true ∧
    (PS4Parser.zero.withReport (frameWith 29 0xD7)).getAudioStatus = false ∧
    (PS4Parser.zero.withReport (frameWith 29 0xD7)).getMicStatus = true ∧
    (PS4Parser.zero.withReport (frameWith 29 0x57)).getBatteryLevel = 7 :=
  ⟨((status_accessors PS4Parser.zero (frameWith 29 0xD7)).2 (frameWith 29 0xD7) rfl).1.trans
      (by decide),
    by decide, by decide, by decide,
    ((status_accessors PS4Parser.zero (frameWith 29 0xD7)).2 (frameWith 29 0x57)
      (by decide)).1.trans (by decide)⟩

/-- C15: sample k of the touchpad starts at offset 33 + 9k of the data block with
one filler byte followed by two 4-byte finger records, nine bytes in all, and
the third sample ends where the 60-byte block ends. In a finger record
(b0, b1, b2, b3) the counter is the low 7 bits of b0, the touching flag the top
bit of b0, x = b1 + 256·(b2 mod 16) and y = (b2 div 16) + 16·b3; these are the
bit ranges of widths 7, 1, 12, 12 taken in this order from the lowest bit of the
record read as a little-endian 32-bit value. -/
theorem touchpad_sample_layout (buf : List Nat) (k : Fin 3) (f : Fin 2) :
    ((PS4Data.ofBytes buf).xy k).dummy = byteAt buf (33 + 9 * k.val) ∧
    ((PS4Data.ofBytes buf).xy k).finger f = fingerAt buf (33 + 9 * k.val + 1 + 4 * f.val) ∧
    (33 + 9 * k.val + 1 + 4 * f.val + 4 ≤ 33 + 9 * (k.val + 1) ∧
      1 + 2 * 4 = 9 ∧ 33 + 9 * 3 = PS4Data.size ∧ PS4Data.size = 60) ∧
    (∀ i : Nat,
      (fingerAt buf i).counter = byteAt buf i % 128 ∧
      (fingerAt buf i).touching = byteAt buf i / 128 ∧
      (fingerAt buf i).x = byteAt buf (i + 1) + 256 * (byteAt buf (i + 2) % 16) ∧
      (fingerAt buf i).y = byteAt buf (i + 2) / 16 + 16 * byteAt buf (i + 3)) ∧
    (∀ i : Nat,
      (fingerAt buf i).counter = fingerWord buf i % 2 ^ 7 ∧
      (fingerAt buf i).touching = fingerWord buf i / 2 ^ 7 % 2 ^ 1 ∧
      (fingerAt buf i).x = fingerWord buf i / 2 ^ (7 + 1) % 2 ^ 12 ∧
      (fingerAt buf i).y = fingerWord buf i / 2 ^ (7 + 1 + 12) % 2 ^ 12) := by
  refine ⟨rfl, rfl, ⟨?_, rfl, rfl, rfl⟩, fun i => ⟨rfl, rfl, rfl, rfl⟩, ?_⟩
  · have hf := f.isLt
    omega
  · intro i
    have h0 := byteAt_lt buf i
    have h1 := byteAt_lt buf (i + 1)
    have h2 := byteAt_lt buf (i + 2)
    have h3 := byteAt_lt buf (i + 3)
    simp only [fingerAt, fingerWord]
    refine ⟨?_, ?_, ?_, ?_⟩ <;> omega

/-- C16 as stated fails: a block whose first button byte has the low nibble 15
decodes to the D-pad value 15, which is above 9. -/
theorem dpad_above_nine :
    (PS4Data.ofBytes (frameWith 4 0x0F)).btn.dpad = 15 ∧
    ¬ ((PS4Data.ofBytes (frameWith 4 0x0F)).btn.dpad ≤ 9) := by
  decide

/-- C16, amended: for every decoded report state the D-pad raw value lies in the
range [0, 15], the range of its 4-bit field, and every value of that range is
the D-pad value of some block. -/
theorem dpad_four_bit (buf : List Nat) :
    (PS4Data.ofBytes buf).btn.dpad ≤ 15 ∧
    (∀ b : PS4Buttons, b.dpad ≤ 15) ∧
    (∀ v : Nat, v ≤ 15 → (PS4Data.ofBytes (frameWith 4 v)).btn.dpad = v) := by
  refine ⟨?_, ?_, ?_⟩
  · show (PS4Data.ofBytes buf).btn.val % 16 ≤ 15
    omega
  · intro b
    show b.val % 16 ≤ 15
    omega
  · intro v hv
    interval_cases v <;> decide

/-- C16, amended, at the value 12. -/
theorem dpad_four_bit_witness :
    (PS4Data.ofBytes (frameWith 4 12)).btn.dpad ≤ 15 ∧
    (PS4Data.ofBytes (frameWith 4 12)).btn.dpad = 12 :=
  ⟨(dpad_four_bit (frameWith 4 12)).1, (dpad_four_bit (frameWith 4 12)).2.2 12 (by decide)⟩

/-- C17: for each of the 14 buttons SHARE .. TOUCHPAD the entry of PS4_BUTTONS is
the position, from the least significant bit of the 24-bit value, of the
bit-field of the same name; the 14 entries are pairwise distinct and lie in
[4, 17], outside the D-pad field (bits 0..3) and the report counter
(bits 18..23). -/
theorem PS4_BUTTONS_matches_bit_fields (b : PS4Buttons) :
    (b.share = b.val / 2 ^ buttonBit ButtonEnum.SHARE % 2 ∧
      b.options = b.val / 2 ^ buttonBit ButtonEnum.OPTIONS % 2 ∧
      b.l3 = b.val / 2 ^ buttonBit ButtonEnum.L3 % 2 ∧
      b.r3 = b.val / 2 ^ buttonBit ButtonEnum.R3 % 2 ∧
      b.l2 = b.val / 2 ^ buttonBit ButtonEnum.L2 % 2 ∧
      b.r2 = b.val / 2 ^ buttonBit ButtonEnum.R2 % 2 ∧
      b.l1 = b.val / 2 ^ buttonBit ButtonEnum.L1 % 2 ∧
      b.r1 = b.val / 2 ^ buttonBit ButtonEnum.R1 % 2 ∧
      b.triangle = b.val / 2 ^ buttonBit ButtonEnum.TRIANGLE % 2 ∧
      b.circle = b.val / 2 ^ buttonBit ButtonEnum.CIRCLE % 2 ∧
      b.cross = b.val / 2 ^ buttonBit ButtonEnum.CROSS % 2 ∧
      b.square = b.val / 2 ^ buttonBit ButtonEnum.SQUARE % 2 ∧
      b.ps = b.val / 2 ^ buttonBit ButtonEnum.PS % 2 ∧
      b.touchpad = b.val / 2 ^ buttonBit ButtonEnum.TOUCHPAD % 2) ∧
    (PS4_BUTTONS.drop 4 = [12, 13, 14, 15, 10, 11, 8, 9, 7, 6, 5, 4, 16, 17] ∧
      (PS4_BUTTONS.drop 4).Nodup ∧
      (∀ i ∈ PS4_BUTTONS.drop 4, 4 ≤ i ∧ i ≤ 17)) ∧
    (∀ x : ButtonEnum, 4 ≤ x.toNat →
      4 ≤ buttonBit x ∧ buttonBit x ≤ 17 ∧
      ∀ y : ButtonEnum, 4 ≤ y.toNat → buttonBit x = buttonBit y → x = y) := by
  refine ⟨⟨rfl, rfl, rfl, rfl, rfl, rfl, rfl, rfl, rfl, rfl, rfl, rfl, rfl, rfl⟩,
    ⟨by decide, by decide, by decide⟩, ?_⟩
  intro x hx
  refine ⟨?_, ?_, ?_⟩
  · revert hx; cases x <;> decide
  · cases x <;> decide
  · intro y _ h
    exact buttonBit_injective x y h

/-- C17 at the button CROSS: its table entry is 5, and bit 5 alone sets the cross
flag and no other. -/
theorem PS4_BUTTONS_matches_bit_fields_witness :
    buttonBit ButtonEnum.CROSS = 5 ∧
    (PS4Buttons.mk (2 ^ 5)).cross = 1 ∧
    (PS4Buttons.mk (2 ^ 5)).cross =
      (PS4Buttons.mk (2 ^ 5)).val / 2 ^ buttonBit ButtonEnum.CROSS % 2 ∧
    (4 ≤ buttonBit ButtonEnum.CROSS ∧ buttonBit ButtonEnum.CROSS ≤ 17) :=
  ⟨by decide, by decide,
    (PS4_BUTTONS_matches_bit_fields (PS4Buttons.mk (2 ^ 5))).1.2.2.2.2.2.2.2.2.2.2.1,
    ((PS4_BUTTONS_matches_bit_fields (PS4Buttons.mk (2 ^ 5))).2.2 ButtonEnum.CROSS
      (by decide)).1,
    ((PS4_BUTTONS_matches_bit_fields (PS4Buttons.mk (2 ^ 5))).2.2 ButtonEnum.CROSS
      (by decide)).2.1⟩

/-- C18: for every colour value c, setLed(c) is setLed(r, g, b) with
r = (c div 65536) mod 256, g = (c div 256) mod 256 and b = c mod 256; it stores
exactly these three bytes, marks the report changed, and depends on c only
through its low 24 bits. -/
theorem setLedColor_splits_channels (p : PS4Parser) (c : Nat) :
    p.setLedColor c = p.setLed (c / 65536 % 256) (c / 256 % 256) (c % 256) ∧
    ((p.setLedColor c).ps4Output.r = c / 65536 % 256 ∧
      (p.setLedColor c).ps4Output.g = c / 256 % 256 ∧
      (p.setLedColor c).ps4Output.b = c % 256 ∧
      (p.setLedColor c).ps4Output.reportChanged = true) ∧
    p.setLedColor c = p.setLedColor (c % 2 ^ 24) ∧
    (∀ hi : Nat, p.setLedColor (c + 2 ^ 24 * hi) = p.setLedColor c) := by
  have hr : ∀ n : Nat, n >>> 16 = n / 65536 := fun n => by
    rw [Nat.shiftRight_eq_div_pow]
  have hg : ∀ n : Nat, n >>> 8 = n / 256 := fun n => by
    rw [Nat.shiftRight_eq_div_pow]
  have hlow : ∀ a b : Nat, a % 2 ^ 24 = b % 2 ^ 24 → p.setLedColor a = p.setLedColor b := by
    intro a b h
    have e1 : a / 65536 % 256 = b / 65536 % 256 := by omega
    have e2 : a / 256 % 256 = b / 256 % 256 := by omega
    have e3 : a % 256 = b % 256 := by omega
    simp only [PS4Parser.setLedColor, hr, hg, e1, e2, e3]
  refine ⟨?_, ⟨?_, ?_, ?_, rfl⟩, ?_, ?_⟩
  · simp only [PS4Parser.setLedColor, hr, hg]
  · simp [PS4Parser.setLedColor, PS4Parser.setLed, hr]
  · simp [PS4Parser.setLedColor, PS4Parser.setLed, hg]
  · simp [PS4Parser.setLedColor, PS4Parser.setLed]
  · apply hlow
    omega
  · intro hi
    apply hlow
    omega

/-- C18 on two concrete colours: 0xADD8E6 stores (173, 216, 230), and so does
0x5CADD8E6, which differs only above bit 23. -/
theorem setLedColor_example :
    (PS4Parser.zero.setLedColor 0xADD8E6).ps4Output = ⟨0, 0, 173, 216, 230, 0, 0, true⟩ ∧
    (PS4Parser.zero.setLedColor 0x5CADD8E6).ps4Output = ⟨0, 0, 173, 216, 230, 0, 0, true⟩ := by
  decide

/-- Positions 0 .. 3 of a four-element buffer. -/
theorem byteAt_quad (a b c d : Nat) :
    byteAt [a, b, c, d] 0 = a % 256 ∧ byteAt [a, b, c, d] (0 + 1) = b % 256 ∧
    byteAt [a, b, c, d] (0 + 2) = c % 256 ∧ byteAt [a, b, c, d] (0 + 3) = d % 256 :=
  ⟨rfl, rfl, rfl, rfl⟩

/-- C19: decoding a finger record is a bijection between the quadruples of bytes
and the tuples (counter, touching, x, y) with counter < 128, touching < 2,
x < 4096 and y < 4096. -/
theorem finger_record_bijection :
    Set.BijOn decodeFinger
      {q | q.1 < 256 ∧ q.2.1 < 256 ∧ q.2.2.1 < 256 ∧ q.2.2.2 < 256}
      {f | f.counter < 128 ∧ f.touching < 2 ∧ f.x < 4096 ∧ f.y < 4096} := by
  refine ⟨?_, ?_, ?_⟩
  · rintro ⟨a, b, c, d⟩ ⟨ha, hb, hc, hd⟩
    simp only [Set.mem_setOf_eq] at ha hb hc hd
    obtain ⟨e0, e1, e2, e3⟩ := byteAt_quad a b c d
    simp only [Set.mem_setOf_eq, decodeFinger, fingerAt, e0, e1, e2, e3]
    refine ⟨?_, ?_, ?_, ?_⟩ <;> omega
  · rintro ⟨a, b, c, d⟩ ⟨ha, hb, hc, hd⟩ ⟨a', b', c', d'⟩ ⟨ha', hb', hc', hd'⟩ h
    simp only [Set.mem_setOf_eq] at ha hb hc hd ha' hb' hc' hd'
    obtain ⟨e0, e1, e2, e3⟩ := byteAt_quad a b c d
    obtain ⟨e0', e1', e2', e3'⟩ := byteAt_quad a' b' c' d'
    simp only [decodeFinger, fingerAt, e0, e1, e2, e3, e0', e1', e2', e3',
      Finger.mk.injEq] at h
    obtain ⟨h1, h2, h3, h4⟩ := h
    have ea : a = a' := by omega
    have eb : b = b' := by omega
    have ec : c = c' := by omega
    have ed : d = d' := by omega
    rw [ea, eb, ec, ed]
  · rintro ⟨cnt, t, x, y⟩ ⟨hc, ht, hx, hy⟩
    simp only at hc ht hx hy
    refine ⟨(cnt + 128 * t, x % 256, x / 256 + 16 * (y % 16), y / 16), ?_, ?_⟩
    · simp only [Set.mem_setOf_eq]
      refine ⟨?_, ?_, ?_, ?_⟩ <;> omega
    · obtain ⟨e0, e1, e2, e3⟩ :=
        byteAt_quad (cnt + 128 * t) (x % 256) (x / 256 + 16 * (y % 16)) (y / 16)
      simp only [decodeFinger, fingerAt, e0, e1, e2, e3, Finger.mk.injEq]
      refine ⟨?_, ?_, ?_, ?_⟩ <;> omega

/-- C19 on a concrete record: the bytes (0x85, 0x34, 0x12, 0xAB) decode to counter 5,
touching 1, x = 0x234, y = 0xAB1, a tuple within the field widths. -/
theorem finger_record_bijection_witness :
    decodeFinger (0x85, 0x34, 0x12, 0xAB) = ⟨5, 1, 0x234, 0xAB1⟩ ∧
    decodeFinger (0x85, 0x34, 0x12, 0xAB) ∈
      {f : Finger | f.counter < 128 ∧ f.touching < 2 ∧ f.x < 4096 ∧ f.y < 4096} :=
  ⟨by decide,
    finger_record_bijection.1 (by
      show (0x85 : Nat) < 256 ∧ (0x34 : Nat) < 256 ∧ (0x12 : Nat) < 256 ∧ (0xAB : Nat) < 256
      decide)⟩

/-! ## Frame of the output setters -/

/-- C20: each output setter changes only its own fields and reportChanged.
setRumbleOn (both forms) and setRumbleOff keep r, g, b, flashOn, flashOff;
setLed (both forms) and setLedOff keep bigRumble, smallRumble, flashOn, flashOff;
setLedFlash keeps bigRumble, smallRumble, r, g, b; setAllOff keeps flashOn and
flashOff; and no setter changes the decoded report, the stored previous button
state, the click latches or the stored previous D-pad bits. -/
theorem setters_frame (p : PS4Parser) (a b c : Nat) (mode : RumbleEnum) :
    (∀ q ∈ [p.setRumbleOn a b, p.setRumbleOnMode mode, p.setRumbleOff],
      q.ps4Output.r = p.ps4Output.r ∧ q.ps4Output.g = p.ps4Output.g ∧
      q.ps4Output.b = p.ps4Output.b ∧ q.ps4Output.flashOn = p.ps4Output.flashOn ∧
      q.ps4Output.flashOff = p.ps4Output.flashOff) ∧
    (∀ q ∈ [p.setLed a b c, p.setLedColor a, p.setLedOff],
      q.ps4Output.bigRumble = p.ps4Output.bigRumble ∧
      q.ps4Output.smallRumble = p.ps4Output.smallRumble ∧
      q.ps4Output.flashOn = p.ps4Output.flashOn ∧
      q.ps4Output.flashOff = p.ps4Output.flashOff) ∧
    ((p.setLedFlash a b).ps4Output.bigRumble = p.ps4Output.bigRumble ∧
      (p.setLedFlash a b).ps4Output.smallRumble = p.ps4Output.smallRumble ∧
      (p.setLedFlash a b).ps4Output.r = p.ps4Output.r ∧
      (p.setLedFlash a b).ps4Output.g = p.ps4Output.g ∧
      (p.setLedFlash a b).ps4Output.b = p.ps4Output.b) ∧
    (p.setAllOff.ps4Output.flashOn = p.ps4Output.flashOn ∧
      p.setAllOff.ps4Output.flashOff = p.ps4Output.flashOff) ∧
    (∀ q ∈ [p.setRumbleOn a b, p.setRumbleOnMode mode, p.setRumbleOff, p.setLed a b c,
        p.setLedColor a, p.setLedOff, p.setLedFlash a b, p.setAllOff],
      q.ps4Data = p.ps4Data ∧ q.oldButtonState = p.oldButtonState ∧
      q.buttonClickState = p.buttonClickState ∧ q.oldDpad = p.oldDpad) := by
  have hmode : p.setRumbleOnMode mode = p.setRumbleOn 0x00 0xFF ∨
      p.setRumbleOnMode mode = p.setRumbleOn 0xFF 0x00 := by
    cases mode
    · exact Or.inr rfl
    · exact Or.inl rfl
  refine ⟨?_, ?_, ⟨rfl, rfl, rfl, rfl, rfl⟩, ⟨rfl, rfl⟩, ?_⟩
  · intro q hq
    simp only [List.mem_cons, List.mem_singleton, List.not_mem_nil, or_false] at hq
    rcases hq with rfl | rfl | rfl
    · exact ⟨rfl, rfl, rfl, rfl, rfl⟩
    · rcases hmode with h | h <;> rw [h] <;> exact ⟨rfl, rfl, rfl, rfl, rfl⟩
    · exact ⟨rfl, rfl, rfl, rfl, rfl⟩
  · intro q hq
    simp only [List.mem_cons, List.mem_singleton, List.not_mem_nil, or_false] at hq
    rcases hq with rfl | rfl | rfl <;> exact ⟨rfl, rfl, rfl, rfl⟩
  · intro q hq
    simp only [List.mem_cons, List.mem_singleton, List.not_mem_nil, or_false] at hq
    rcases hq with rfl | rfl | rfl | rfl | rfl | rfl | rfl | rfl
    · exact ⟨rfl, rfl, rfl, rfl⟩
    · rcases hmode with h | h <;> rw [h] <;> exact ⟨rfl, rfl, rfl, rfl⟩
    · exact ⟨rfl, rfl, rfl, rfl⟩
    · exact ⟨rfl, rfl, rfl, rfl⟩
    · exact ⟨rfl, rfl, rfl, rfl⟩
    · exact ⟨rfl, rfl, rfl, rfl⟩
    · exact ⟨rfl, rfl, rfl, rfl⟩
    · exact ⟨rfl, rfl, rfl, rfl⟩
